import Mathlib

/- Verification development for pyps (src/pyson.py): the chunk codec, the
   diff/summary engine, the paginated store adapter and the sync
   orchestrator are embedded as pure Lean functions, and the documented
   properties are proved about these embeddings. Python strings are
   embedded as lists of characters, dictionaries as association lists, and
   the external collaborators (the SSM client, the json library, the
   terminal and the filesystem) as oracle parameters fixed up front. -/

/-- Embeds Python's builtin range(start, stop, step) for a positive step,
with explicit fuel making the recursion structural; the fuel stop - start
always suffices because each iteration advances start by step >= 1. A zero
step, a ValueError in Python and never used by this program, yields []. -/
def pyRangeFuel : Nat → Nat → Nat → Nat → List Nat
  | 0, _, _, _ => []
  | fuel + 1, start, stop, step =>
    if step = 0 then []
    else if start < stop then start :: pyRangeFuel fuel (start + step) stop step
    else []

/-- Python range(start, stop, step), instantiating the fuel. -/
def pyRange (start stop step : Nat) : List Nat :=
  pyRangeFuel (stop - start) start stop step

/-- SSM_VALUE_LIMIT (src/pyson.py:19). -/
def SSM_VALUE_LIMIT : Nat := 4096

/-- Embeds chunkenize (src/pyson.py:150-152) with the size limit as a
parameter, as in the codec contract of the spec: the body is the
comprehension over range(0, len(str), limit) of the slices
str[i:i + limit], and a slice from i of at most limit characters is
take limit of drop i. -/
def chunkWith (limit : Nat) (s : List Char) : List (List Char) :=
  (pyRange 0 s.length limit).map (fun i => (s.drop i).take limit)

/-- chunkenize (src/pyson.py:150-152): the source slices windows of
SSM_VALUE_LIMIT characters. -/
def chunkenize (s : List Char) : List (List Char) :=
  chunkWith SSM_VALUE_LIMIT s

/-- Embeds the classification part of get_summary_table
(src/pyson.py:42-56): missing (the deleted column) and added are sorted
set differences of the two key sets, common_keys is the sorted
intersection, and the loop over common_keys appends a key to unchanged
when the two values compare equal and to changed otherwise; the filters
keep the loop's iteration order. The rendering of the table
(src/pyson.py:57-79) is purely presentational and is not modelled. -/
def get_summary_sets {V : Type} [DecidableEq V] (old new : List (String × V)) :
    List String × List String × List String × List String :=
  let old_keys := (old.map Prod.fst).toFinset
  let new_keys := (new.map Prod.fst).toFinset
  let missing := (old_keys \ new_keys).sort (· ≤ ·)
  let added := (new_keys \ old_keys).sort (· ≤ ·)
  let common_keys := (old_keys ∩ new_keys).sort (· ≤ ·)
  let unchanged := common_keys.filter (fun k => decide (old.lookup k = new.lookup k))
  let changed := common_keys.filter (fun k => decide (¬ old.lookup k = new.lookup k))
  (missing, added, changed, unchanged)

/-- One physical parameter record as returned by get_parameters_by_path,
with the Name and Value fields used by retrieve (src/pyson.py:105-111). -/
structure Entry where
  name : List Char
  value : List Char
deriving DecidableEq

/-- One response of the external paginated get_parameters_by_path call:
its Parameters list and its optional NextToken (src/pyson.py:92-94). A
run of query_ssm consumes successive responses from an oracle list. -/
structure Page where
  entries : List Entry
  nextToken : Option (List Char)
deriving DecidableEq

/-- Embeds the body of query_ssm (src/pyson.py:84-98): append the page's
Parameters to the accumulator (the source rebinds with +, which allocates
a new list) and recurse exactly while a NextToken is present. The oracle
list supplies successive store responses; an exhausted oracle ends the
recursion with the accumulator. -/
def query_ssm (parameters : List Entry) : List Page → List Entry
  | [] => parameters
  | page :: rest =>
    match page.nextToken with
    | some _ => query_ssm (parameters ++ page.entries) rest
    | none => parameters ++ page.entries

/-- Models the Python default-argument cell of query_ssm (src/pyson.py:84):
the default list parameters=[] is allocated once at definition time, and a
call without the argument binds parameters to that very object. The body
only rebinds (parameters = parameters + ...), allocating a fresh list, so
a call leaves the cell unchanged and returns it as the second component;
an in-place mutation (append or +=) in the body would instead have had to
return the updated list as the new cell contents. -/
def query_ssmWithDefault (cell : List Entry) (pages : List Page) :
    List Entry × List Entry :=
  (query_ssm cell pages, cell)

/-- Python string comparison as used by list.sort with a string key:
lexicographic by code point, a proper prefix coming first. -/
def strLt : List Char → List Char → Bool
  | [], [] => false
  | [], _ :: _ => true
  | _ :: _, [] => false
  | a :: as, b :: bs =>
    if a.toNat < b.toNat then true
    else if b.toNat < a.toNat then false
    else strLt as bs

/-- Stable insertion of an entry into a list sorted ascending by name: the
entry goes in front of the first element whose key is not below its own. -/
def insertByName (a : Entry) : List Entry → List Entry
  | [] => [a]
  | b :: bs => if strLt b.name a.name then b :: insertByName a bs else a :: b :: bs

/-- Embeds chunks.sort with the Name key (src/pyson.py:105): a stable
ascending sort comparing the Name strings with Python's lexicographic
string order. -/
def sortChunks : List Entry → List Entry
  | [] => []
  | a :: as => insertByName a (sortChunks as)

/-- Embeds the concatenation loop of retrieve (src/pyson.py:105-110): sort
the chunks by Name and concatenate their Value fields in that order,
producing the consolidated text handed to json.loads. -/
def consolidatedOf (chunks : List Entry) : List Char :=
  ((sortChunks chunks).map Entry.value).flatten

/-- A parsed logical configuration document: a JSON object embedded as an
association list from key to value, the value type left abstract. -/
abbrev ParamSet (V : Type) := List (List Char × V)

/-- Outcome of retrieve (src/pyson.py:82-119): the parsed document with
the fetched physical names, or the fatal json.loads failure. -/
inductive Fetched (V : Type) where
  | ok (params : ParamSet V) (names : List (List Char)) : Fetched V
  | parseFail : Fetched V
deriving DecidableEq

/-- The external collaborators of one run (src/pyson.py:186-226), fixed up
front: the store's successive paginated responses, the target path built
from the command-line arguments, the already-loaded local configuration
document (load_new_parameters is external file input), the json library's
parse function and its two serializers (the compact dumps used by write
and the indent=2 dumps used by backup), the two interactive confirmation
answers, and whether the two fallible backup filesystem steps
(os.makedirs, then the backup file write) succeed. Failures of
delete_parameters and of put_parameter are not modelled: each terminates
the run at once, and no claim settled here depends on them. -/
structure World (V : Type) where
  pages : List Page
  path : List Char
  newDoc : ParamSet V
  loads : List Char → Option (ParamSet V)
  dumps : ParamSet V → List Char
  dumpsInd2 : ParamSet V → List Char
  answer1 : List Char
  answer2 : List Char
  backupMkdirOk : Bool
  backupWriteOk : Bool

/-- Embeds retrieve (src/pyson.py:82-119): collect the pages with
query_ssm from the empty accumulator; with no chunks at all return the
empty document and the empty name list; otherwise sort by Name,
concatenate the values, collect the sorted names, and parse the
consolidated text, a parse failure being the fatal fail_and_die path. -/
def retrieve {V : Type} (w : World V) : Fetched V :=
  let chunks := query_ssm [] w.pages
  if chunks = [] then Fetched.ok [] []
  else
    match w.loads (consolidatedOf chunks) with
    | some doc => Fetched.ok doc ((sortChunks chunks).map Entry.name)
    | none => Fetched.parseFail

/-- Embeds the gate test of confirm_or_die (src/pyson.py:121-125): the run
continues exactly when the first character of the answer, lowercased, is
the letter y; the slice result[:1] of an empty answer is the empty string,
which declines. -/
def startsYes : List Char → Bool
  | [] => false
  | c :: _ => c.toLower == 'y'

/-- Observable actions against the remote store and the backup directory,
recorded in execution order. Terminal prints carry no effect on the store
or the filesystem and are not recorded. -/
inductive Event where
  | backupWritten (content : List Char) : Event
  | deleteCall (names : List (List Char)) : Event
  | putParameter (name : List Char) (value : List Char) : Event
  | report (count : Nat) : Event
deriving DecidableEq

/-- How a run terminates: a normal return from run, the exit() of
confirm_or_die on a declined gate, the exit() of fail_and_die, or an
uncaught exception reaching the interpreter. -/
inductive Term where
  | done : Term
  | userAbort : Term
  | failDie : Term
  | uncaught : Term
deriving DecidableEq

/-- Process exit status of each terminal state: Python's exit() with no
argument raises SystemExit(None), which terminates with status 0, so both
the decline path and every fail_and_die path (src/pyson.py:127-129) end
with status 0; only an uncaught exception makes the interpreter report
status 1. -/
def exitCode : Term → Nat
  | Term.done => 0
  | Term.userAbort => 0
  | Term.failDie => 0
  | Term.uncaught => 1

/-- Name of the i-th physical entry issued by write (src/pyson.py:167):
the path followed by the text /part_ and the decimal index. -/
def nameFor (path : List Char) (i : Nat) : List Char :=
  path ++ "/part_".toList ++ Nat.toDigits 10 i

/-- Embeds write (src/pyson.py:155-175) after serialization: chunkenize
the serialized text and issue one put_parameter per chunk, the i-th named
by nameFor with zero-based consecutive indices, collecting one response
per issued put (modelled as the name-value pair sent) into the returned
written list. -/
def write (path : List Char) (stringified : List Char) :
    List (List Char × List Char) :=
  (chunkenize stringified).enum.map (fun ic => (nameFor path ic.1, ic.2))

/-- The part of run after retrieve (src/pyson.py:204-226): the first
confirmation gate, the summary table print (no store effect), the second
gate, then for an existing project the backup, where either filesystem
failure ends the run with nothing destructive attempted (a makedirs
failure through fail_and_die, a file-write failure as an uncaught
exception) and success records the indent=2 dump of the old document,
followed by delete_parameters on the fetched names; finally, in every
confirmed run, the chunked write and the report of the written count. -/
def runWithFetch {V : Type} (w : World V) : Fetched V → List Event × Term
  | Fetched.parseFail => ([], Term.failDie)
  | Fetched.ok parameters parameters_names =>
    if startsYes w.answer1 = false then ([], Term.userAbort)
    else if startsYes w.answer2 = false then ([], Term.userAbort)
    else if 0 < parameters_names.length then
      if w.backupMkdirOk = false then ([], Term.failDie)
      else if w.backupWriteOk = false then ([], Term.uncaught)
      else
        let puts := write w.path (w.dumps w.newDoc)
        (Event.backupWritten (w.dumpsInd2 parameters) ::
          Event.deleteCall parameters_names ::
          puts.map (fun p => Event.putParameter p.1 p.2) ++
          [Event.report puts.length], Term.done)
    else
      let puts := write w.path (w.dumps w.newDoc)
      (puts.map (fun p => Event.putParameter p.1 p.2) ++
        [Event.report puts.length], Term.done)

/-- Embeds run (src/pyson.py:186-226) after argument parsing and the load
of the local configuration file. -/
def run {V : Type} (w : World V) : List Event × Term :=
  runWithFetch w (retrieve w)

/-- An event that changes the remote store. -/
def isDestructive : Event → Bool
  | Event.deleteCall _ => true
  | Event.putParameter _ _ => true
  | _ => false

/-- An event that writes a backup file. -/
def isBackup : Event → Bool
  | Event.backupWritten _ => true
  | _ => false

/-- Eleven fetched chunk entries named part_0 through part_10, holding the
letters a through k, listed in the order write produced them. -/
def chunks11 : List Entry :=
  [⟨"part_0".toList, "a".toList⟩, ⟨"part_1".toList, "b".toList⟩,
   ⟨"part_2".toList, "c".toList⟩, ⟨"part_3".toList, "d".toList⟩,
   ⟨"part_4".toList, "e".toList⟩, ⟨"part_5".toList, "f".toList⟩,
   ⟨"part_6".toList, "g".toList⟩, ⟨"part_7".toList, "h".toList⟩,
   ⟨"part_8".toList, "i".toList⟩, ⟨"part_9".toList, "j".toList⟩,
   ⟨"part_10".toList, "k".toList⟩]

/-- A world with one existing remote entry whose text parses to the
single-key document a maps to 1, a new local document, affirmative answers
at both gates and working backup filesystem steps. -/
def wExisting : World Nat :=
  ⟨[⟨[⟨"/d/p/part_0".toList, "olddoc".toList⟩], none⟩],
   "/d/p".toList,
   [⟨"x".toList, 2⟩],
   fun _ => some [⟨"a".toList, 1⟩],
   fun _ => "newdoc".toList,
   fun _ => "olddocpretty".toList,
   "y".toList, "Yes".toList, true, true⟩

/-- The same world as wExisting except that the user declines the second
confirmation gate. -/
def wDeclined : World Nat :=
  ⟨[⟨[⟨"/d/p/part_0".toList, "olddoc".toList⟩], none⟩],
   "/d/p".toList,
   [⟨"x".toList, 2⟩],
   fun _ => some [⟨"a".toList, 1⟩],
   fun _ => "newdoc".toList,
   fun _ => "olddocpretty".toList,
   "y".toList, "no".toList, true, true⟩

/-- A world whose paginated fetch returns zero entries, with affirmative
answers at both gates. -/
def wNew : World Nat :=
  ⟨[⟨[], none⟩],
   "/d/p".toList,
   [⟨"x".toList, 2⟩],
   fun _ => some [⟨"a".toList, 1⟩],
   fun _ => "newdoc".toList,
   fun _ => "olddocpretty".toList,
   "y".toList, "y".toList, true, true⟩

/-- A world whose fetched remote text fails to parse as JSON: the loads
oracle rejects every text. -/
def wBadRemote : World Nat :=
  ⟨[⟨[⟨"/d/p/part_0".toList, "notjson".toList⟩], none⟩],
   "/d/p".toList,
   [⟨"x".toList, 2⟩],
   fun _ => none,
   fun _ => "newdoc".toList,
   fun _ => "olddocpretty".toList,
   "y".toList, "y".toList, true, true⟩

/-- Fuel-indexed form of the codec round-trip: the mapped slices of the
tail range starting at i concatenate to the suffix of s from i. -/
theorem pyRangeFuel_slice_flatten (L : Nat) (hL : 1 ≤ L) (s : List Char) :
    ∀ (fuel i : Nat), s.length - i ≤ fuel →
      ((pyRangeFuel fuel i s.length L).map (fun j => (s.drop j).take L)).flatten =
        s.drop i := by
  intro fuel
  induction fuel with
  | zero =>
    intro i h
    have hle : s.length ≤ i := by omega
    simp [pyRangeFuel, List.drop_eq_nil_of_le hle]
  | succ m ih =>
    intro i h
    by_cases hi : i < s.length
    · have hL0 : ¬ L = 0 := by omega
      simp only [pyRangeFuel, if_neg hL0, if_pos hi, List.map_cons, List.flatten_cons]
      rw [ih (i + L) (by omega)]
      have hdd : s.drop (i + L) = (s.drop i).drop L := by
        rw [List.drop_drop]
      rw [hdd, List.take_append_drop]
    · have hL0 : ¬ L = 0 := by omega
      have hle : s.length ≤ i := by omega
      simp [pyRangeFuel, if_neg hL0, if_neg hi, List.drop_eq_nil_of_le hle]

/-- The codec concatenates back to the original text. -/
theorem chunkWith_flatten (L : Nat) (hL : 1 ≤ L) (s : List Char) :
    (chunkWith L s).flatten = s := by
  have h := pyRangeFuel_slice_flatten L hL s (s.length - 0) 0 (Nat.le_refl _)
  simpa [chunkWith, pyRange] using h

/-- Every produced segment is a take of at most L characters. -/
theorem chunkWith_le (L : Nat) (s : List Char) :
    ∀ c ∈ chunkWith L s, c.length ≤ L := by
  intro c hc
  simp only [chunkWith, List.mem_map] at hc
  obtain ⟨i, _, rfl⟩ := hc
  simp only [List.length_take]
  exact min_le_left _ _

/-- Fuel-indexed segment count of the codec. -/
theorem pyRangeFuel_length (L : Nat) (hL : 1 ≤ L) :
    ∀ (fuel i n : Nat), n - i ≤ fuel →
      (pyRangeFuel fuel i n L).length = (n - i + L - 1) / L := by
  intro fuel
  induction fuel with
  | zero =>
    intro i n h
    have e0 : n - i = 0 := by omega
    rw [e0]
    simp [pyRangeFuel]
    exact (Nat.div_eq_of_lt (by omega)).symm
  | succ m ih =>
    intro i n h
    by_cases hi : i < n
    · have hL0 : ¬ L = 0 := by omega
      simp only [pyRangeFuel, if_neg hL0, if_pos hi, List.length_cons]
      rw [ih (i + L) n (by omega)]
      rcases Nat.le_total (n - i) L with hc | hc
      · have e0 : n - (i + L) = 0 := by omega
        have d1 : (0 + L - 1) / L = 0 := Nat.div_eq_of_lt (by omega)
        have d2 : (n - i + L - 1) / L = 1 := by
          have e2 : n - i + L - 1 = (n - i - 1) + L := by omega
          rw [e2, Nat.add_div_right _ (by omega), Nat.div_eq_of_lt (by omega)]
        rw [e0, d1, d2]
      · have e1 : n - (i + L) + L - 1 = n - i - 1 := by omega
        have e2 : n - i + L - 1 = (n - i - 1) + L := by omega
        rw [e1, e2, Nat.add_div_right _ (by omega)]
    · have hL0 : ¬ L = 0 := by omega
      simp only [pyRangeFuel, if_neg hL0, if_neg hi, List.length_nil]
      have e0 : n - i = 0 := by omega
      rw [e0]
      exact (Nat.div_eq_of_lt (by omega)).symm

/-- The codec produces exactly the ceiling of length over limit segments. -/
theorem chunkWith_length (L : Nat) (hL : 1 ≤ L) (s : List Char) :
    (chunkWith L s).length = (s.length + L - 1) / L := by
  have h := pyRangeFuel_length L hL (s.length - 0) 0 s.length (Nat.le_refl _)
  simpa [chunkWith, pyRange] using h

/-- C1: codec round-trip. For every text and every limit of at least one,
concatenating in order the segments produced by the chunkenize codec
yields the text again, and every produced segment has length at most the
limit; in particular this holds for the source's chunkenize at
SSM_VALUE_LIMIT. -/
theorem c1_codec_roundtrip (L : Nat) (hL : 1 ≤ L) (s : List Char) :
    (chunkWith L s).flatten = s ∧
    (∀ c ∈ chunkWith L s, c.length ≤ L) ∧
    (chunkenize s).flatten = s ∧
    ∀ c ∈ chunkenize s, c.length ≤ SSM_VALUE_LIMIT :=
  ⟨chunkWith_flatten L hL s, chunkWith_le L s,
    chunkWith_flatten SSM_VALUE_LIMIT (by decide) s, chunkWith_le SSM_VALUE_LIMIT s⟩

/-- Witness for C1 at the limit three and an eight-character text. -/
theorem c1_codec_roundtrip_witness :
    1 ≤ 3 ∧ (chunkWith 3 "abcdefgh".toList).flatten = "abcdefgh".toList :=
  ⟨by decide, (c1_codec_roundtrip 3 (by decide) "abcdefgh".toList).1⟩

/-- C7: codec segment count. chunkenize of the empty text produces no
segments, and for every text the number of produced segments is the
ceiling of the length over SSM_VALUE_LIMIT, written as
(length + SSM_VALUE_LIMIT - 1) / SSM_VALUE_LIMIT, which for the empty
text is zero. -/
theorem c7_segment_count :
    chunkenize [] = [] ∧
    ∀ s : List Char,
      (chunkenize s).length = (s.length + SSM_VALUE_LIMIT - 1) / SSM_VALUE_LIMIT :=
  ⟨rfl, fun s => chunkWith_length SSM_VALUE_LIMIT (by decide) s⟩

/-- The accumulator is only ever extended on the right: a run of query_ssm
from any accumulator is that accumulator followed by a fresh run. -/
theorem query_ssm_append (acc : List Entry) (pages : List Page) :
    query_ssm acc pages = acc ++ query_ssm [] pages := by
  induction pages generalizing acc with
  | nil => simp [query_ssm]
  | cons page rest ih =>
    cases htok : page.nextToken with
    | none => simp [query_ssm, htok]
    | some t =>
      simp only [query_ssm, htok]
      rw [ih (acc ++ page.entries), ih ([] ++ page.entries)]
      simp

/-- C10: no cross-call accumulation in pagination. The body of query_ssm
only rebinds its accumulator, never mutating the default-argument cell, so
the cell holds the empty list after a call, a second call over the same
responses starts again from the empty accumulator and returns the same
result, and in general a call from any accumulator only appends the
freshly fetched entries to it. -/
theorem c10_no_accumulation :
    (∀ (acc : List Entry) (pages : List Page),
        query_ssm acc pages = acc ++ query_ssm [] pages) ∧
    ∀ pages : List Page,
      (query_ssmWithDefault [] pages).2 = [] ∧
      (query_ssmWithDefault ((query_ssmWithDefault [] pages).2) pages).1 =
        (query_ssmWithDefault [] pages).1 :=
  ⟨query_ssm_append, fun _ => ⟨rfl, rfl⟩⟩

/-- Membership in the deleted column of the summary. -/
theorem summary_mem_deleted {V : Type} [DecidableEq V]
    (old new : List (String × V)) (k : String) :
    k ∈ (get_summary_sets old new).1 ↔
      k ∈ old.map Prod.fst ∧ ¬ k ∈ new.map Prod.fst := by
  simp [get_summary_sets, Finset.mem_sort, Finset.mem_sdiff, List.mem_toFinset]

/-- Membership in the added column of the summary. -/
theorem summary_mem_added {V : Type} [DecidableEq V]
    (old new : List (String × V)) (k : String) :
    k ∈ (get_summary_sets old new).2.1 ↔
      k ∈ new.map Prod.fst ∧ ¬ k ∈ old.map Prod.fst := by
  simp [get_summary_sets, Finset.mem_sort, Finset.mem_sdiff, List.mem_toFinset]

/-- Membership in the changed column of the summary. -/
theorem summary_mem_changed {V : Type} [DecidableEq V]
    (old new : List (String × V)) (k : String) :
    k ∈ (get_summary_sets old new).2.2.1 ↔
      (k ∈ old.map Prod.fst ∧ k ∈ new.map Prod.fst) ∧
        ¬ old.lookup k = new.lookup k := by
  simp [get_summary_sets, List.mem_filter, Finset.mem_sort, Finset.mem_inter,
    List.mem_toFinset]

/-- Membership in the unchanged column of the summary. -/
theorem summary_mem_unchanged {V : Type} [DecidableEq V]
    (old new : List (String × V)) (k : String) :
    k ∈ (get_summary_sets old new).2.2.2 ↔
      (k ∈ old.map Prod.fst ∧ k ∈ new.map Prod.fst) ∧
        old.lookup k = new.lookup k := by
  simp [get_summary_sets, List.mem_filter, Finset.mem_sort, Finset.mem_inter,
    List.mem_toFinset]

/-- C2: diff correctness and partition. The four columns computed by the
summary classification are each sorted lexically ascending; deleted is
exactly the old keys absent from new, added exactly the new keys absent
from old, and a common key lands in unchanged when its two values are
equal and in changed otherwise; the four columns are pairwise disjoint and
their union is the union of the two key sets. -/
theorem c2_diff_partition {V : Type} [DecidableEq V] (old new : List (String × V)) :
    (List.Sorted (· ≤ ·) (get_summary_sets old new).1 ∧
      List.Sorted (· ≤ ·) (get_summary_sets old new).2.1 ∧
      List.Sorted (· ≤ ·) (get_summary_sets old new).2.2.1 ∧
      List.Sorted (· ≤ ·) (get_summary_sets old new).2.2.2) ∧
    (∀ k, k ∈ (get_summary_sets old new).1 ↔
      k ∈ old.map Prod.fst ∧ ¬ k ∈ new.map Prod.fst) ∧
    (∀ k, k ∈ (get_summary_sets old new).2.1 ↔
      k ∈ new.map Prod.fst ∧ ¬ k ∈ old.map Prod.fst) ∧
    (∀ k, k ∈ (get_summary_sets old new).2.2.1 ↔
      (k ∈ old.map Prod.fst ∧ k ∈ new.map Prod.fst) ∧
        ¬ old.lookup k = new.lookup k) ∧
    (∀ k, k ∈ (get_summary_sets old new).2.2.2 ↔
      (k ∈ old.map Prod.fst ∧ k ∈ new.map Prod.fst) ∧
        old.lookup k = new.lookup k) ∧
    ((get_summary_sets old new).1.Disjoint (get_summary_sets old new).2.1 ∧
      (get_summary_sets old new).1.Disjoint (get_summary_sets old new).2.2.1 ∧
      (get_summary_sets old new).1.Disjoint (get_summary_sets old new).2.2.2 ∧
      (get_summary_sets old new).2.1.Disjoint (get_summary_sets old new).2.2.1 ∧
      (get_summary_sets old new).2.1.Disjoint (get_summary_sets old new).2.2.2 ∧
      (get_summary_sets old new).2.2.1.Disjoint (get_summary_sets old new).2.2.2) ∧
    ∀ k, (k ∈ (get_summary_sets old new).1 ∨ k ∈ (get_summary_sets old new).2.1 ∨
        k ∈ (get_summary_sets old new).2.2.1 ∨ k ∈ (get_summary_sets old new).2.2.2) ↔
      (k ∈ old.map Prod.fst ∨ k ∈ new.map Prod.fst) := by
  refine ⟨⟨?_, ?_, ?_, ?_⟩, summary_mem_deleted old new, summary_mem_added old new,
    summary_mem_changed old new, summary_mem_unchanged old new, ⟨?_, ?_, ?_, ?_, ?_, ?_⟩, ?_⟩
  · simp only [get_summary_sets]
    exact Finset.sort_sorted _ _
  · simp only [get_summary_sets]
    exact Finset.sort_sorted _ _
  · simp only [get_summary_sets]
    exact List.Pairwise.filter _ (Finset.sort_sorted _ _)
  · simp only [get_summary_sets]
    exact List.Pairwise.filter _ (Finset.sort_sorted _ _)
  · intro k h1 h2
    rw [summary_mem_deleted] at h1
    rw [summary_mem_added] at h2
    tauto
  · intro k h1 h2
    rw [summary_mem_deleted] at h1
    rw [summary_mem_changed] at h2
    tauto
  · intro k h1 h2
    rw [summary_mem_deleted] at h1
    rw [summary_mem_unchanged] at h2
    tauto
  · intro k h1 h2
    rw [summary_mem_added] at h1
    rw [summary_mem_changed] at h2
    tauto
  · intro k h1 h2
    rw [summary_mem_added] at h1
    rw [summary_mem_unchanged] at h2
    tauto
  · intro k h1 h2
    rw [summary_mem_changed] at h1
    rw [summary_mem_unchanged] at h2
    tauto
  · intro k
    rw [summary_mem_deleted, summary_mem_added, summary_mem_changed,
      summary_mem_unchanged]
    tauto

/-- C3: chunk reassembly order. The claim that retrieve concatenates
fetched chunk values in ascending numeric sequence-index order fails on
the code for more than ten chunks: the source sorts the full names
lexically, which places part_10 between part_1 and part_2, so the eleven
entries holding the letters a through k in numeric order are concatenated
to abkcdefghij instead of the abcdefghijk that ascending numeric index
order would give. -/
theorem c3_lexical_misorder :
    (sortChunks chunks11).map Entry.name =
      ["part_0".toList, "part_1".toList, "part_10".toList, "part_2".toList,
       "part_3".toList, "part_4".toList, "part_5".toList, "part_6".toList,
       "part_7".toList, "part_8".toList, "part_9".toList] ∧
    consolidatedOf chunks11 = "abkcdefghij".toList ∧
    ¬ consolidatedOf chunks11 = "abcdefghijk".toList :=
  ⟨by decide, by decide, by decide⟩

/-- C9: exit behavior. The run does exit cleanly on success and on user
decline, but on a remote parse error it terminates through fail_and_die,
whose argument-free exit() carries status 0 rather than the non-zero
status the claim requires: at the failing input wBadRemote, whose fetched
text does not parse, the run ends in the failDie state with exit status
0. -/
theorem c9_error_exit_status_zero :
    retrieve wBadRemote = Fetched.parseFail ∧
    run wBadRemote = ([], Term.failDie) ∧
    exitCode Term.failDie = 0 ∧
    exitCode Term.done = 0 ∧
    exitCode Term.userAbort = 0 :=
  ⟨rfl, rfl, rfl, rfl, rfl⟩

/-- C4: backup before destroy. When the fetched name list is non-empty
and both gates are confirmed, a successful backup records the indent=2
serialization of the old fetched document as the very first effect, before
the delete call and before every put; and when either backup filesystem
step fails, the run terminates with no delete and no put attempted. -/
theorem c4_backup_before_destroy {V : Type} (w : World V) (params : ParamSet V)
    (names : List (List Char)) (hf : retrieve w = Fetched.ok params names)
    (hne : names ≠ []) (h1 : startsYes w.answer1 = true)
    (h2 : startsYes w.answer2 = true) :
    (w.backupMkdirOk = true → w.backupWriteOk = true →
      (run w).1 =
        Event.backupWritten (w.dumpsInd2 params) ::
          Event.deleteCall names ::
          (write w.path (w.dumps w.newDoc)).map (fun p => Event.putParameter p.1 p.2) ++
          [Event.report (write w.path (w.dumps w.newDoc)).length] ∧
      (run w).2 = Term.done) ∧
    ((w.backupMkdirOk = false ∨ w.backupWriteOk = false) →
      (∀ e ∈ (run w).1, isDestructive e = false) ∧ ¬ (run w).2 = Term.done) := by
  have hlen : 0 < names.length := List.length_pos.mpr hne
  constructor
  · intro hm hw
    simp [run, hf, runWithFetch, h1, h2, hlen, hm, hw]
  · intro hfail
    rcases hfail with hm | hw
    · simp [run, hf, runWithFetch, h1, h2, hlen, hm]
    · cases hm : w.backupMkdirOk
      · simp [run, hf, runWithFetch, h1, h2, hlen, hm]
      · simp [run, hf, runWithFetch, h1, h2, hlen, hm, hw]

/-- Witness for C4: at wExisting the backup of the old document is the
first effect, followed by the delete of the fetched names and the chunked
write. -/
theorem c4_backup_before_destroy_witness :
    (run wExisting).1 =
      Event.backupWritten ("olddocpretty".toList) ::
        Event.deleteCall ["/d/p/part_0".toList] ::
        (write ("/d/p".toList) ("newdoc".toList)).map
          (fun p => Event.putParameter p.1 p.2) ++
        [Event.report (write ("/d/p".toList) ("newdoc".toList)).length] ∧
    (run wExisting).2 = Term.done := by
  have h := c4_backup_before_destroy wExisting [⟨"a".toList, 1⟩]
    ["/d/p/part_0".toList] rfl (by decide) (by decide) (by decide)
  exact h.1 rfl rfl

/-- C5: decline path. When retrieve succeeds and the user declines either
confirmation gate, the run performs no backup, no delete and no write (its
effect trace is empty), terminates in the user-abort state, and exits with
status 0. -/
theorem c5_decline_path {V : Type} (w : World V) (params : ParamSet V)
    (names : List (List Char)) (hf : retrieve w = Fetched.ok params names)
    (hdecl : startsYes w.answer1 = false ∨ startsYes w.answer2 = false) :
    (run w).1 = [] ∧ (run w).2 = Term.userAbort ∧ exitCode (run w).2 = 0 := by
  rcases hdecl with h1 | h2
  · simp [run, hf, runWithFetch, h1, exitCode]
  · cases h1 : startsYes w.answer1
    · simp [run, hf, runWithFetch, h1, exitCode]
    · simp [run, hf, runWithFetch, h1, h2, exitCode]

/-- Witness for C5: declining the second gate at wDeclined leaves an empty
effect trace and a clean user-abort exit. -/
theorem c5_decline_path_witness :
    (run wDeclined).1 = [] ∧ (run wDeclined).2 = Term.userAbort ∧
      exitCode (run wDeclined).2 = 0 :=
  c5_decline_path wDeclined [⟨"a".toList, 1⟩] ["/d/p/part_0".toList] rfl
    (Or.inr (by decide))

/-- C6: new-project detection. When the paginated fetch returns zero
entries, retrieve returns the empty document and the empty name list, and
a run confirmed at both gates performs no backup and no delete: its whole
effect trace is the chunked write followed by the count report, ending
normally. -/
theorem c6_new_project {V : Type} (w : World V)
    (hempty : query_ssm [] w.pages = [])
    (h1 : startsYes w.answer1 = true) (h2 : startsYes w.answer2 = true) :
    retrieve w = Fetched.ok [] [] ∧
    (∀ e ∈ (run w).1, isBackup e = false ∧ ∀ ns, ¬ e = Event.deleteCall ns) ∧
    (run w).1 =
      (write w.path (w.dumps w.newDoc)).map (fun p => Event.putParameter p.1 p.2) ++
        [Event.report (write w.path (w.dumps w.newDoc)).length] ∧
    (run w).2 = Term.done := by
  have hr : retrieve w = Fetched.ok [] [] := by
    simp [retrieve, hempty]
  refine ⟨hr, ?_, ?_, ?_⟩
  · intro e he
    simp [run, hr, runWithFetch, h1, h2] at he
    rcases he with ⟨a, b, _, rfl⟩ | rfl
    · exact ⟨rfl, fun ns h => by cases h⟩
    · exact ⟨rfl, fun ns h => by cases h⟩
  · simp [run, hr, runWithFetch, h1, h2]
  · simp [run, hr, runWithFetch, h1, h2]

/-- Witness for C6: the empty fetch of wNew yields the empty document and
name list and a normally terminating run. -/
theorem c6_new_project_witness :
    retrieve wNew = Fetched.ok [] [] ∧ (run wNew).2 = Term.done := by
  have h := c6_new_project wNew rfl (by decide) (by decide)
  exact ⟨h.1, h.2.2.2⟩

/-- The written list issues the names path/part_0, path/part_1, ... in
order, carries exactly the codec's segments as values, and has the ceiling
of length over SSM_VALUE_LIMIT many elements. -/
theorem write_spec (path s : List Char) :
    (write path s).map Prod.fst =
      (List.range ((s.length + SSM_VALUE_LIMIT - 1) / SSM_VALUE_LIMIT)).map
        (nameFor path) ∧
    (write path s).map Prod.snd = chunkenize s ∧
    (write path s).length = (s.length + SSM_VALUE_LIMIT - 1) / SSM_VALUE_LIMIT := by
  have hlen : (chunkenize s).length =
      (s.length + SSM_VALUE_LIMIT - 1) / SSM_VALUE_LIMIT :=
    chunkWith_length SSM_VALUE_LIMIT (by decide) s
  refine ⟨?_, ?_, ?_⟩
  · rw [write, List.map_map, ← hlen, ← List.enum_map_fst (chunkenize s),
      List.map_map]
    rfl
  · rw [write, List.map_map]
    have hcomp : (Prod.snd ∘ fun ic : Nat × List Char => (nameFor path ic.1, ic.2)) =
        Prod.snd := rfl
    rw [hcomp, List.enum_map_snd]
  · rw [write, List.length_map, List.enum_length, hlen]

/-- C8: write naming and count. The chunked write issues one put per
segment of the serialized document, named path/part_i with zero-based
consecutive indices in order, returns one confirmation per segment, and a
run confirmed at both gates with a working backup reports exactly the
ceiling of the serialized length over SSM_VALUE_LIMIT as its written
count and terminates normally. -/
theorem c8_write_naming_count {V : Type} (w : World V) (params : ParamSet V)
    (names : List (List Char)) (hf : retrieve w = Fetched.ok params names)
    (h1 : startsYes w.answer1 = true) (h2 : startsYes w.answer2 = true)
    (hm : w.backupMkdirOk = true) (hw : w.backupWriteOk = true) :
    (∀ path s : List Char,
      (write path s).map Prod.fst =
        (List.range ((s.length + SSM_VALUE_LIMIT - 1) / SSM_VALUE_LIMIT)).map
          (nameFor path) ∧
      (write path s).map Prod.snd = chunkenize s ∧
      (write path s).length = (s.length + SSM_VALUE_LIMIT - 1) / SSM_VALUE_LIMIT) ∧
    Event.report (((w.dumps w.newDoc).length + SSM_VALUE_LIMIT - 1) /
        SSM_VALUE_LIMIT) ∈ (run w).1 ∧
    (run w).2 = Term.done := by
  have hcount := (write_spec w.path (w.dumps w.newDoc)).2.2
  refine ⟨fun path s => write_spec path s, ?_, ?_⟩
  · by_cases hlen : 0 < names.length
    · simp [run, hf, runWithFetch, h1, h2, hlen, hm, hw, hcount]
    · simp [run, hf, runWithFetch, h1, h2, hlen, hm, hw, hcount]
  · by_cases hlen : 0 < names.length
    · simp [run, hf, runWithFetch, h1, h2, hlen, hm, hw]
    · simp [run, hf, runWithFetch, h1, h2, hlen, hm, hw]

/-- Witness for C8: at wExisting the six-character serialized document
yields one segment, and the run reports a written count of one. -/
theorem c8_write_naming_count_witness :
    Event.report ((("newdoc".toList).length + SSM_VALUE_LIMIT - 1) /
        SSM_VALUE_LIMIT) ∈ (run wExisting).1 ∧
    (run wExisting).2 = Term.done := by
  have h := c8_write_naming_count wExisting [⟨"a".toList, 1⟩]
    ["/d/p/part_0".toList] rfl (by decide) (by decide) rfl rfl
  exact ⟨h.2.1, h.2.2⟩
